import Mathlib

/-!
Verification of the kaminari_extension sharing pipeline and folder store.

JavaScript strings are modelled as lists of UTF-16 code units (`List Nat`),
byte arrays (`Uint8Array`) as lists of byte values (`List Nat`).  Host
functions (`btoa`, `atob`, `TextEncoder`, `crypto.subtle`, `chrome.storage`,
`fetch`) are modelled explicitly; the WebCrypto primitives are abstracted as a
`CryptoBackend` record since their internals live outside the repository.
-/

set_option maxRecDepth 8000

deriving instance DecidableEq for Except

/-- Code unit of the standard base64 alphabet character for a six-bit value,
mirroring the alphabet used by the host `btoa`. -/
def charOfSixBit (n : Nat) : Nat :=
  if n < 26 then 65 + n
  else if n < 52 then 97 + (n - 26)
  else if n < 62 then 48 + (n - 52)
  else if n = 62 then 43
  else 47

/-- Inverse alphabet lookup used by the host `atob`; `none` on a code unit
outside the base64 alphabet. -/
def sixBitOfCode (c : Nat) : Option Nat :=
  if 65 ≤ c ∧ c ≤ 90 then some (c - 65)
  else if 97 ≤ c ∧ c ≤ 122 then some (c - 97 + 26)
  else if 48 ≤ c ∧ c ≤ 57 then some (c - 48 + 52)
  else if c = 43 then some 62
  else if c = 47 then some 63
  else none

/-- Standard base64 encoding of a byte list, with `=` (code unit 61) padding,
as produced by the host `btoa` on a binary string. -/
def encodeB64 : List Nat → List Nat
  | [] => []
  | [a] => [charOfSixBit (a / 4), charOfSixBit (a % 4 * 16), 61, 61]
  | [a, b] => [charOfSixBit (a / 4), charOfSixBit (a % 4 * 16 + b / 16),
      charOfSixBit (b % 16 * 4), 61]
  | a :: b :: c :: rest =>
      charOfSixBit (a / 4) :: charOfSixBit (a % 4 * 16 + b / 16) ::
      charOfSixBit (b % 16 * 4 + c / 64) :: charOfSixBit (c % 64) ::
      encodeB64 rest

/-- Removes every trailing occurrence of `=` (code unit 61), the effect of
the replacement of the trailing padding run by the empty string and of the padding handling inside `atob`. -/
def stripTrailingEq (l : List Nat) : List Nat :=
  (l.reverse.dropWhile (· = 61)).reverse

/-- Base64 decoding of a padding-stripped code-unit list; groups of four
symbols give three bytes, a final group of two or three symbols gives one or
two bytes (leftover bits discarded, as in forgiving base64 decoding). -/
def decodeB64Core : List Nat → Option (List Nat)
  | [] => some []
  | [_] => none
  | [w, x] =>
      match sixBitOfCode w, sixBitOfCode x with
      | some vw, some vx => some [vw * 4 + vx / 16]
      | _, _ => none
  | [w, x, y] =>
      match sixBitOfCode w, sixBitOfCode x, sixBitOfCode y with
      | some vw, some vx, some vy => some [vw * 4 + vx / 16, vx % 16 * 16 + vy / 4]
      | _, _, _ => none
  | w :: x :: y :: z :: rest =>
      match sixBitOfCode w, sixBitOfCode x, sixBitOfCode y, sixBitOfCode z,
          decodeB64Core rest with
      | some vw, some vx, some vy, some vz, some tail =>
          some ((vw * 4 + vx / 16) :: (vx % 16 * 16 + vy / 4) ::
            (vy % 4 * 64 + vz) :: tail)
      | _, _, _, _, _ => none

/-- Errors thrown by the modelled host and library functions. -/
inductive JsError where
  | invalidCharacter
  | encryptionFailed
  | decryptionFailed
  deriving DecidableEq, Repr

/-- The host `btoa`: base64-encodes a string read as bytes, throwing
`InvalidCharacterError` when a code unit exceeds 255. -/
def jsBtoa (s : List Nat) : Except JsError (List Nat) :=
  if s.all (· < 256) then .ok (encodeB64 s) else .error .invalidCharacter

/-- The host `atob`: strips trailing padding and base64-decodes, throwing on
an invalid character or an invalid length. -/
def jsAtob (s : List Nat) : Except JsError (List Nat) :=
  match decodeB64Core (stripTrailingEq s) with
  | some bytes => .ok bytes
  | none => .error .invalidCharacter

theorem sixBitOfCode_charOfSixBit : ∀ n, n < 64 → sixBitOfCode (charOfSixBit n) = some n := by
  decide

theorem charOfSixBit_lt_128 : ∀ n, n < 64 → charOfSixBit n < 128 := by
  decide

theorem charOfSixBit_ne_61 : ∀ n, n < 64 → charOfSixBit n ≠ 61 := by
  decide

theorem stripTrailingEq_append_of_ne_nil (xs : List Nat) {ys : List Nat}
    (h : stripTrailingEq ys ≠ []) :
    stripTrailingEq (xs ++ ys) = xs ++ stripTrailingEq ys := by
  unfold stripTrailingEq at *
  rw [List.reverse_append, List.dropWhile_append]
  have hne : (ys.reverse.dropWhile (· = 61)).isEmpty = false := by
    cases he : ys.reverse.dropWhile (· = 61) with
    | nil => exact absurd (by simp [he]) h
    | cons a as => rfl
  rw [hne]
  simp

theorem stripTrailingEq_append_of_nil (xs : List Nat) {ys : List Nat}
    (h : stripTrailingEq ys = []) :
    stripTrailingEq (xs ++ ys) = stripTrailingEq xs := by
  unfold stripTrailingEq at *
  rw [List.reverse_append, List.dropWhile_append]
  have hne : (ys.reverse.dropWhile (· = 61)).isEmpty = true := by
    have : ys.reverse.dropWhile (· = 61) = [] := by
      have := congrArg List.reverse h
      simpa using this
    simp [this]
  rw [hne]
  simp

theorem stripTrailingEq_of_no_61 {xs : List Nat} (h : ∀ c ∈ xs, c ≠ 61) :
    stripTrailingEq xs = xs := by
  unfold stripTrailingEq
  have : xs.reverse.dropWhile (· = 61) = xs.reverse := by
    cases he : xs.reverse with
    | nil => rfl
    | cons a as =>
        have ha : a ∈ xs := by
          have : a ∈ xs.reverse := by rw [he]; simp
          simpa using this
        rw [List.dropWhile_cons]
        simp [h a ha]
  rw [this, List.reverse_reverse]

theorem stripTrailingEq_ne_nil {c : Nat} (h : c ≠ 61) (cs : List Nat) :
    stripTrailingEq (c :: cs) ≠ [] := by
  unfold stripTrailingEq
  intro hcontra
  have h2 : (c :: cs).reverse.dropWhile (· = 61) = [] := by
    have := congrArg List.reverse hcontra
    simpa using this
  rw [List.dropWhile_eq_nil_iff] at h2
  exact h (by simpa using h2 c (by simp))

theorem stripTrailingEq_all_61 {xs : List Nat} (h : ∀ c ∈ xs, c = 61) :
    stripTrailingEq xs = [] := by
  unfold stripTrailingEq
  have : xs.reverse.dropWhile (· = 61) = [] := by
    rw [List.dropWhile_eq_nil_iff]
    intro x hx
    simp [h x (by simpa using hx)]
  simp [this]

/-- Every byte list splits the base64 encoding into alphabet symbols followed
by padding. -/
theorem encodeB64_split : ∀ l : List Nat, (∀ b ∈ l, b < 256) →
    ∃ body pads, encodeB64 l = body ++ pads ∧
      (∀ c ∈ body, ∃ n, n < 64 ∧ c = charOfSixBit n) ∧ (∀ c ∈ pads, c = 61)
  | [], _ => ⟨[], [], rfl, by simp, by simp⟩
  | [a], h => by
      have ha : a < 256 := h a (by simp)
      refine ⟨[charOfSixBit (a / 4), charOfSixBit (a % 4 * 16)], [61, 61], rfl, ?_, by simp⟩
      intro c hc
      simp only [List.mem_cons, List.not_mem_nil, or_false] at hc
      rcases hc with rfl | rfl
      · exact ⟨a / 4, by omega, rfl⟩
      · exact ⟨a % 4 * 16, by omega, rfl⟩
  | [a, b], h => by
      have ha : a < 256 := h a (by simp)
      have hb : b < 256 := h b (by simp)
      refine ⟨[charOfSixBit (a / 4), charOfSixBit (a % 4 * 16 + b / 16),
        charOfSixBit (b % 16 * 4)], [61], rfl, ?_, by simp⟩
      intro c hc
      simp only [List.mem_cons, List.not_mem_nil, or_false] at hc
      rcases hc with rfl | rfl | rfl
      · exact ⟨a / 4, by omega, rfl⟩
      · exact ⟨a % 4 * 16 + b / 16, by omega, rfl⟩
      · exact ⟨b % 16 * 4, by omega, rfl⟩
  | a :: b :: c :: rest, h => by
      have ha : a < 256 := h a (by simp)
      have hb : b < 256 := h b (by simp)
      have hc : c < 256 := h c (by simp)
      obtain ⟨body, pads, heq, hbody, hpads⟩ :=
        encodeB64_split rest (fun x hx => h x (by simp [hx]))
      refine ⟨charOfSixBit (a / 4) :: charOfSixBit (a % 4 * 16 + b / 16) ::
        charOfSixBit (b % 16 * 4 + c / 64) :: charOfSixBit (c % 64) :: body, pads, ?_, ?_, hpads⟩
      · simp [encodeB64, heq]
      · intro x hx
        simp only [List.mem_cons] at hx
        rcases hx with rfl | rfl | rfl | rfl | hx
        · exact ⟨a / 4, by omega, rfl⟩
        · exact ⟨a % 4 * 16 + b / 16, by omega, rfl⟩
        · exact ⟨b % 16 * 4 + c / 64, by omega, rfl⟩
        · exact ⟨c % 64, by omega, rfl⟩
        · exact hbody x hx

/-- Decoding after padding-stripping inverts the base64 encoding. -/
theorem decodeB64_roundtrip : ∀ l : List Nat, (∀ b ∈ l, b < 256) →
    decodeB64Core (stripTrailingEq (encodeB64 l)) = some l
  | [], _ => rfl
  | [a], h => by
      have ha : a < 256 := h a (by simp)
      have h1 : a / 4 < 64 := by omega
      have h2 : a % 4 * 16 < 64 := by omega
      have hs : stripTrailingEq (encodeB64 [a]) =
          [charOfSixBit (a / 4), charOfSixBit (a % 4 * 16)] := by
        show stripTrailingEq
          ([charOfSixBit (a / 4), charOfSixBit (a % 4 * 16)] ++ [61, 61]) = _
        rw [stripTrailingEq_append_of_nil _ (by rfl),
          stripTrailingEq_of_no_61]
        intro x hx
        simp only [List.mem_cons, List.not_mem_nil, or_false] at hx
        rcases hx with rfl | rfl
        · exact charOfSixBit_ne_61 _ h1
        · exact charOfSixBit_ne_61 _ h2
      rw [hs]
      simp only [decodeB64Core, sixBitOfCode_charOfSixBit _ h1,
        sixBitOfCode_charOfSixBit _ h2]
      have e1 : a / 4 * 4 + a % 4 * 16 / 16 = a := by omega
      rw [e1]
  | [a, b], h => by
      have ha : a < 256 := h a (by simp)
      have hb : b < 256 := h b (by simp)
      have h1 : a / 4 < 64 := by omega
      have h2 : a % 4 * 16 + b / 16 < 64 := by omega
      have h3 : b % 16 * 4 < 64 := by omega
      have hs : stripTrailingEq (encodeB64 [a, b]) =
          [charOfSixBit (a / 4), charOfSixBit (a % 4 * 16 + b / 16),
           charOfSixBit (b % 16 * 4)] := by
        show stripTrailingEq
          ([charOfSixBit (a / 4), charOfSixBit (a % 4 * 16 + b / 16),
            charOfSixBit (b % 16 * 4)] ++ [61]) = _
        rw [stripTrailingEq_append_of_nil _ (by rfl),
          stripTrailingEq_of_no_61]
        intro x hx
        simp only [List.mem_cons, List.not_mem_nil, or_false] at hx
        rcases hx with rfl | rfl | rfl
        · exact charOfSixBit_ne_61 _ h1
        · exact charOfSixBit_ne_61 _ h2
        · exact charOfSixBit_ne_61 _ h3
      rw [hs]
      simp only [decodeB64Core, sixBitOfCode_charOfSixBit _ h1,
        sixBitOfCode_charOfSixBit _ h2, sixBitOfCode_charOfSixBit _ h3]
      have e1 : a / 4 * 4 + (a % 4 * 16 + b / 16) / 16 = a := by omega
      have e2 : (a % 4 * 16 + b / 16) % 16 * 16 + b % 16 * 4 / 4 = b := by omega
      rw [e1, e2]
  | a :: b :: c :: rest, h => by
      have ha : a < 256 := h a (by simp)
      have hb : b < 256 := h b (by simp)
      have hc : c < 256 := h c (by simp)
      have hrest : ∀ x ∈ rest, x < 256 := fun x hx => h x (by simp [hx])
      have h1 : a / 4 < 64 := by omega
      have h2 : a % 4 * 16 + b / 16 < 64 := by omega
      have h3 : b % 16 * 4 + c / 64 < 64 := by omega
      have h4 : c % 64 < 64 := by omega
      have ih := decodeB64_roundtrip rest hrest
      have henc : encodeB64 (a :: b :: c :: rest) =
          [charOfSixBit (a / 4), charOfSixBit (a % 4 * 16 + b / 16),
           charOfSixBit (b % 16 * 4 + c / 64), charOfSixBit (c % 64)] ++ encodeB64 rest := by
        simp [encodeB64]
      have e1 : a / 4 * 4 + (a % 4 * 16 + b / 16) / 16 = a := by omega
      have e2 : (a % 4 * 16 + b / 16) % 16 * 16 + (b % 16 * 4 + c / 64) / 4 = b := by omega
      have e3 : (b % 16 * 4 + c / 64) % 4 * 64 + c % 64 = c := by omega
      have hno61 : ∀ x ∈ [charOfSixBit (a / 4), charOfSixBit (a % 4 * 16 + b / 16),
          charOfSixBit (b % 16 * 4 + c / 64), charOfSixBit (c % 64)], x ≠ 61 := by
        intro x hx
        simp only [List.mem_cons, List.not_mem_nil, or_false] at hx
        rcases hx with rfl | rfl | rfl | rfl
        · exact charOfSixBit_ne_61 _ h1
        · exact charOfSixBit_ne_61 _ h2
        · exact charOfSixBit_ne_61 _ h3
        · exact charOfSixBit_ne_61 _ h4
      cases rest with
      | nil =>
          have hs : stripTrailingEq (encodeB64 [a, b, c]) =
              [charOfSixBit (a / 4), charOfSixBit (a % 4 * 16 + b / 16),
               charOfSixBit (b % 16 * 4 + c / 64), charOfSixBit (c % 64)] := by
            rw [henc, show encodeB64 ([] : List Nat) = [] from rfl, List.append_nil]
            exact stripTrailingEq_of_no_61 hno61
          rw [hs]
          simp only [decodeB64Core, sixBitOfCode_charOfSixBit _ h1,
            sixBitOfCode_charOfSixBit _ h2, sixBitOfCode_charOfSixBit _ h3,
            sixBitOfCode_charOfSixBit _ h4]
          rw [e1, e2, e3]
      | cons r rs =>
          have hrne : stripTrailingEq (encodeB64 (r :: rs)) ≠ [] := by
            intro hcontra
            rw [hcontra] at ih
            cases ih
          rw [henc, stripTrailingEq_append_of_ne_nil _ hrne]
          simp only [List.cons_append, List.nil_append]
          cases hrs : stripTrailingEq (encodeB64 (r :: rs)) with
          | nil => exact absurd hrs hrne
          | cons t0 ts =>
              rw [hrs] at ih
              simp only [decodeB64Core, sixBitOfCode_charOfSixBit _ h1,
                sixBitOfCode_charOfSixBit _ h2, sixBitOfCode_charOfSixBit _ h3,
                sixBitOfCode_charOfSixBit _ h4, ih]
              rw [e1, e2, e3]

/-- The global replacement of `+` (43) by `-` (45), on a single code unit. -/
def plusToMinus (c : Nat) : Nat := if c = 43 then 45 else c

/-- The global replacement of the slash (47) by `_` (95), on a single code unit. -/
def slashToUnderscore (c : Nat) : Nat := if c = 47 then 95 else c

/-- The global replacement of `-` (45) by `+` (43), on a single code unit. -/
def minusToPlus (c : Nat) : Nat := if c = 45 then 43 else c

/-- The global replacement of `_` (95) by the slash (47), on a single code unit. -/
def underscoreToSlash (c : Nat) : Nat := if c = 95 then 47 else c

/-- Model of `uint8ArrayToBase64Url` from `src/js/encryption.js`: standard base64 via
`btoa` (the byte values are below 256, so `btoa` cannot throw here), then
`+` to `-`, `/` to `_`, and trailing `=` stripped. -/
def uint8ArrayToBase64Url (array : List Nat) : List Nat :=
  stripTrailingEq (((encodeB64 array).map plusToMinus).map slashToUnderscore)

/-- Model of `base64UrlToUint8Array` from `src/js/encryption.js`: `-` back to `+`,
`_` back to `/`, then `atob` and a byte per character. -/
def base64UrlToUint8Array (base64url : List Nat) : Except JsError (List Nat) :=
  jsAtob ((base64url.map minusToPlus).map underscoreToSlash)

theorem urlMaps_roundtrip_alphabet : ∀ n, n < 64 →
    underscoreToSlash (minusToPlus (slashToUnderscore (plusToMinus (charOfSixBit n)))) =
      charOfSixBit n := by
  decide

theorem urlMaps_chars : ∀ n, n < 64 →
    slashToUnderscore (plusToMinus (charOfSixBit n)) ≠ 43 ∧
    slashToUnderscore (plusToMinus (charOfSixBit n)) ≠ 47 ∧
    slashToUnderscore (plusToMinus (charOfSixBit n)) ≠ 61 := by
  decide

theorem urlMaps_lt_128 : ∀ n, n < 64 →
    slashToUnderscore (plusToMinus (charOfSixBit n)) < 128 := by
  decide

/-- Structure of the URL-safe encoding: it equals the padding-free alphabet
body of the base64 encoding, with `+` and `/` rewritten. -/
theorem uint8ArrayToBase64Url_structure (l : List Nat) (h : ∀ b ∈ l, b < 256) :
    ∃ body, stripTrailingEq (encodeB64 l) = body ∧
      uint8ArrayToBase64Url l = body.map (fun c => slashToUnderscore (plusToMinus c)) ∧
      (∀ c ∈ body, ∃ n, n < 64 ∧ c = charOfSixBit n) := by
  obtain ⟨body, pads, heq, hbody, hpads⟩ := encodeB64_split l h
  have hbody61 : ∀ c ∈ body, c ≠ 61 := by
    intro c hc
    obtain ⟨n, hn, rfl⟩ := hbody c hc
    exact charOfSixBit_ne_61 n hn
  have hstrip : stripTrailingEq (encodeB64 l) = body := by
    rw [heq, stripTrailingEq_append_of_nil _ (stripTrailingEq_all_61 hpads)]
    exact stripTrailingEq_of_no_61 hbody61
  refine ⟨body, hstrip, ?_, hbody⟩
  unfold uint8ArrayToBase64Url
  rw [heq, List.map_append, List.map_append, List.map_map, List.map_map]
  have hmpads : pads.map (slashToUnderscore ∘ plusToMinus) = pads := by
    have h2 : pads.map (slashToUnderscore ∘ plusToMinus) = pads.map id := by
      apply List.map_congr_left
      intro x hx
      rw [hpads x hx]
      rfl
    simpa using h2
  rw [hmpads]
  have hbody61 : ∀ c ∈ body.map (slashToUnderscore ∘ plusToMinus), c ≠ 61 := by
    intro c hc
    obtain ⟨c0, hc0, rfl⟩ := List.mem_map.mp hc
    obtain ⟨n, hn, rfl⟩ := hbody c0 hc0
    exact (urlMaps_chars n hn).2.2
  rw [stripTrailingEq_append_of_nil _ (stripTrailingEq_all_61 hpads),
    stripTrailingEq_of_no_61 hbody61]
  rfl

/-- Decoding inverts URL-safe encoding on byte lists. -/
theorem base64UrlToUint8Array_roundtrip (l : List Nat) (h : ∀ b ∈ l, b < 256) :
    base64UrlToUint8Array (uint8ArrayToBase64Url l) = .ok l := by
  obtain ⟨body, hstrip, henc, hbody⟩ := uint8ArrayToBase64Url_structure l h
  unfold base64UrlToUint8Array
  rw [henc, List.map_map, List.map_map]
  have hmaps : body.map ((underscoreToSlash ∘ minusToPlus) ∘ fun c =>
      slashToUnderscore (plusToMinus c)) = body := by
    have h2 : body.map ((underscoreToSlash ∘ minusToPlus) ∘ fun c =>
        slashToUnderscore (plusToMinus c)) = body.map id := by
      apply List.map_congr_left
      intro x hx
      obtain ⟨n, hn, rfl⟩ := hbody x hx
      simpa [Function.comp] using urlMaps_roundtrip_alphabet n hn
    simpa using h2
  rw [hmaps]
  have hbody61 : ∀ c ∈ body, c ≠ 61 := by
    intro c hc
    obtain ⟨n, hn, rfl⟩ := hbody c hc
    exact charOfSixBit_ne_61 n hn
  unfold jsAtob
  rw [stripTrailingEq_of_no_61 hbody61, ← hstrip, decodeB64_roundtrip l h]

/-- The URL-safe encoding never contains `+` (43), the slash (47) or `=` (61). -/
theorem uint8ArrayToBase64Url_no_forbidden (l : List Nat) (h : ∀ b ∈ l, b < 256) :
    ∀ c ∈ uint8ArrayToBase64Url l, c ≠ 43 ∧ c ≠ 47 ∧ c ≠ 61 := by
  obtain ⟨body, hstrip, henc, hbody⟩ := uint8ArrayToBase64Url_structure l h
  rw [henc]
  intro c hc
  obtain ⟨c0, hc0, rfl⟩ := List.mem_map.mp hc
  obtain ⟨n, hn, rfl⟩ := hbody c0 hc0
  exact urlMaps_chars n hn

/-- Base64 output is plain ASCII. -/
theorem encodeB64_all_lt_128 (l : List Nat) (h : ∀ b ∈ l, b < 256) :
    ∀ c ∈ encodeB64 l, c < 128 := by
  obtain ⟨body, pads, heq, hbody, hpads⟩ := encodeB64_split l h
  rw [heq]
  intro c hc
  rcases List.mem_append.mp hc with hc | hc
  · obtain ⟨n, hn, rfl⟩ := hbody c hc
    exact charOfSixBit_lt_128 n hn
  · rw [hpads c hc]
    omega


/-- UTF-8 bytes of a single scalar value below 65536 taken from a UTF-16
code unit (so the four-byte case never arises here). -/
def utf8Scalar (u : Nat) : List Nat :=
  if u < 128 then [u]
  else if u < 2048 then [192 + u / 64, 128 + u % 64]
  else [224 + u / 4096, 128 + u / 64 % 64, 128 + u % 64]

/-- UTF-8 bytes of the code point formed by a valid surrogate pair. -/
def utf8Pair (hs ls : Nat) : List Nat :=
  [240 + (65536 + (hs - 55296) * 1024 + (ls - 56320)) / 262144,
   128 + (65536 + (hs - 55296) * 1024 + (ls - 56320)) / 4096 % 64,
   128 + (65536 + (hs - 55296) * 1024 + (ls - 56320)) / 64 % 64,
   128 + (65536 + (hs - 55296) * 1024 + (ls - 56320)) % 64]

/-- State machine behind the host `TextEncoder`: the first argument is a
pending high surrogate waiting for its low half.  An unpaired surrogate is
encoded as the replacement character U+FFFD (bytes 239, 191, 189). -/
def utf8EncAux : Option Nat → List Nat → List Nat
  | none, [] => []
  | some _, [] => [239, 191, 189]
  | none, u :: rest =>
      if u < 55296 ∨ 57344 ≤ u then utf8Scalar u ++ utf8EncAux none rest
      else if u < 56320 then utf8EncAux (some u) rest
      else 239 :: 191 :: 189 :: utf8EncAux none rest
  | some hs, u :: rest =>
      if 56320 ≤ u ∧ u < 57344 then utf8Pair hs u ++ utf8EncAux none rest
      else if u < 55296 ∨ 57344 ≤ u then
        239 :: 191 :: 189 :: (utf8Scalar u ++ utf8EncAux none rest)
      else if u < 56320 then 239 :: 191 :: 189 :: utf8EncAux (some u) rest
      else 239 :: 191 :: 189 :: 239 :: 191 :: 189 :: utf8EncAux none rest

/-- The host `TextEncoder` applied to a UTF-16 code-unit sequence. -/
def utf8EncodeUnits (s : List Nat) : List Nat :=
  utf8EncAux none s

/-- UTF-16 code units of a decoded code point. -/
def unitsOfCodePoint (cp : Nat) : List Nat :=
  if cp < 65536 then [cp]
  else [55296 + (cp - 65536) / 1024, 56320 + (cp - 65536) % 1024]

/-- State machine behind the host `TextDecoder` in its default non-fatal
mode: the first argument counts continuation bytes still expected, the second
accumulates the partial code point.  Malformed sequences collapse to U+FFFD
(65533); only the ASCII behaviour of this model is relied upon by the
theorems below. -/
def utf8DecAux : Nat → Nat → List Nat → List Nat
  | 0, _, [] => []
  | _ + 1, _, [] => [65533]
  | 0, _, b :: rest =>
      if b < 128 then b :: utf8DecAux 0 0 rest
      else if b < 192 then 65533 :: utf8DecAux 0 0 rest
      else if b < 224 then utf8DecAux 1 (b - 192) rest
      else if b < 240 then utf8DecAux 2 (b - 224) rest
      else utf8DecAux 3 (b - 240) rest
  | need + 1, acc, b :: rest =>
      if 128 ≤ b ∧ b < 192 then
        match need with
        | 0 => unitsOfCodePoint (acc * 64 + (b - 128)) ++ utf8DecAux 0 0 rest
        | n + 1 => utf8DecAux (n + 1) (acc * 64 + (b - 128)) rest
      else 65533 :: utf8DecAux 0 0 rest

/-- The host `TextDecoder` applied to a UTF-8 byte sequence. -/
def utf8DecodeBytes (bytes : List Nat) : List Nat :=
  utf8DecAux 0 0 bytes

/-- Decoding inverts encoding on ASCII code-unit sequences. -/
theorem utf8_ascii_aux : ∀ s : List Nat, (∀ u ∈ s, u < 128) →
    utf8DecAux 0 0 (utf8EncAux none s) = s
  | [], _ => rfl
  | u :: rest, h => by
      have hu : u < 128 := h u (by simp)
      have ih := utf8_ascii_aux rest (fun x hx => h x (by simp [hx]))
      have hsc : u < 55296 ∨ 57344 ≤ u := by omega
      simp only [utf8EncAux, if_pos hsc, utf8Scalar, if_pos hu, List.cons_append,
        List.nil_append, utf8DecAux, if_pos hu, ih]

/-- Decoding inverts encoding on ASCII code-unit sequences. -/
theorem utf8_ascii_roundtrip (s : List Nat) (h : ∀ u ∈ s, u < 128) :
    utf8DecodeBytes (utf8EncodeUnits s) = s :=
  utf8_ascii_aux s h

/-- Model of `compressData` from `src/js/encryption.js` on the branch where the
LZString library is unavailable: the function falls back to `btoa` applied
directly to the string, so it inherits the `InvalidCharacterError` thrown by
`btoa` on any code unit above 255. -/
def compressData (data : List Nat) : Except JsError (List Nat) :=
  jsBtoa data

/-- Model of `decompressData` from `src/js/encryption.js` on the branch where the
LZString library is unavailable: `atob` applied to the compressed string. -/
def decompressData (compressedData : List Nat) : Except JsError (List Nat) :=
  jsAtob compressedData

/-- The WebCrypto collaborators used by `deriveKey`, `encrypt` and `decrypt`.
`pbkdf2Sha256AesKey` stands for the PBKDF2 (100000 iterations, SHA-256)
derivation of a 256-bit AES-GCM key from the password bytes and the salt;
`aesGcmEncrypt` and `aesGcmDecrypt` stand for `crypto.subtle.encrypt` and
`crypto.subtle.decrypt` with AES-GCM (arguments: key, iv, data), the latter
returning `none` when authentication fails. -/
structure CryptoBackend where
  pbkdf2Sha256AesKey : List Nat → List Nat → List Nat
  aesGcmEncrypt : List Nat → List Nat → List Nat → List Nat
  aesGcmDecrypt : List Nat → List Nat → List Nat → Option (List Nat)

/-- Model of `deriveKey` from `src/js/encryption.js`: the password is UTF-8 encoded by
a `TextEncoder` and fed with the salt into the PBKDF2-based key derivation. -/
def deriveKey (B : CryptoBackend) (password salt : List Nat) : List Nat :=
  B.pbkdf2Sha256AesKey (utf8EncodeUnits password) salt

/-- The share envelope `{v, s, i, d}` produced by `encrypt`.  `decrypt`
receives this envelope as the result of `JSON.parse` on its JSON
serialization; for this flat record of a number and three strings the
parse of the serialization is the identity, which is how the JSON step is
modelled here. -/
structure Envelope where
  v : Int
  s : List Nat
  i : List Nat
  d : List Nat
  deriving DecidableEq, Repr

/-- Model of `encrypt` from `src/js/encryption.js`.  The random salt (16 bytes) and iv
(12 bytes) produced by `crypto.getRandomValues` are passed in explicitly.
The body derives the key, compresses the plaintext, UTF-8 encodes the
compressed string, AES-GCM encrypts it, and packages version 1 with the
URL-safe base64 of salt, iv and ciphertext; the surrounding try/catch turns
any thrown error into a generic encryption failure. -/
def encrypt (B : CryptoBackend) (data password salt iv : List Nat) :
    Except JsError Envelope :=
  let key := deriveKey B password salt
  match compressData data with
  | .error _ => .error .encryptionFailed
  | .ok compressedData =>
      let dataBuffer := utf8EncodeUnits compressedData
      let encryptedArray := B.aesGcmEncrypt key iv dataBuffer
      .ok { v := 1, s := uint8ArrayToBase64Url salt, i := uint8ArrayToBase64Url iv,
            d := uint8ArrayToBase64Url encryptedArray }

/-- Model of `decrypt` from `src/js/encryption.js` applied to the parsed payload.
The version is checked first; then salt, iv and ciphertext are base64url
decoded, the key is derived from the password and salt, AES-GCM decryption
runs, and the result is UTF-8 decoded and decompressed.  The surrounding
try/catch turns every thrown error - including the unsupported-version throw
and the authentication failure - into the single generic decryption
failure. -/
def decrypt (B : CryptoBackend) (payload : Envelope) (password : List Nat) :
    Except JsError (List Nat) :=
  if payload.v ≠ 1 then .error .decryptionFailed
  else
    match base64UrlToUint8Array payload.s with
    | .error _ => .error .decryptionFailed
    | .ok salt =>
        match base64UrlToUint8Array payload.i with
        | .error _ => .error .decryptionFailed
        | .ok iv =>
            match base64UrlToUint8Array payload.d with
            | .error _ => .error .decryptionFailed
            | .ok encryptedArray =>
                let key := deriveKey B password salt
                match B.aesGcmDecrypt key iv encryptedArray with
                | none => .error .decryptionFailed
                | some decryptedBuffer =>
                    match decompressData (utf8DecodeBytes decryptedBuffer) with
                    | .error _ => .error .decryptionFailed
                    | .ok plain => .ok plain

/-- An executable instantiation of the WebCrypto collaborators, used to
evaluate the pipeline on concrete inputs: the derived key is the password
bytes, a zero separator and the salt; the ciphertext records the key and iv
lengths followed by key, iv and message, and decryption authenticates by
checking the recorded key and iv before releasing the message. -/
def toyBackend : CryptoBackend where
  pbkdf2Sha256AesKey pw salt := pw ++ 0 :: salt
  aesGcmEncrypt key iv m := key.length :: iv.length :: (key ++ iv ++ m)
  aesGcmDecrypt key iv c :=
    match c with
    | kl :: il :: rest =>
        if kl = key.length ∧ il = iv.length ∧ rest.take kl = key ∧
            (rest.drop kl).take il = iv then
          some ((rest.drop kl).drop il)
        else none
    | _ => none

/-- The toy backend authenticates: decrypting under any key other than the
encryption key fails. -/
theorem toyBackend_auth (key iv m k : List Nat) (hk : k ≠ key) :
    toyBackend.aesGcmDecrypt k iv (toyBackend.aesGcmEncrypt key iv m) = none := by
  show (if key.length = k.length ∧ iv.length = iv.length ∧
      (key ++ iv ++ m).take key.length = k ∧
      ((key ++ iv ++ m).drop key.length).take iv.length = iv then
    some (((key ++ iv ++ m).drop key.length).drop iv.length) else none) = none
  rw [if_neg]
  intro hcontra
  obtain ⟨h1, h2, h3, h4⟩ := hcontra
  have htake : (key ++ iv ++ m).take key.length = key := by
    rw [List.append_assoc, List.take_left]
  exact hk (by rw [← h3, htake])

/-- The fallback codec round-trips on strings whose code units are bytes. -/
theorem decompressData_encodeB64 (data : List Nat) (h : ∀ b ∈ data, b < 256) :
    decompressData (encodeB64 data) = .ok data := by
  unfold decompressData jsAtob
  rw [decodeB64_roundtrip data h]

/-- A successful `encrypt` forces the plaintext code units below 256 (the
`btoa` fallback compressor) and determines the envelope exactly. -/
theorem encrypt_ok_elim (B : CryptoBackend) (data password salt iv : List Nat)
    (env : Envelope) (h : encrypt B data password salt iv = .ok env) :
    (∀ b ∈ data, b < 256) ∧
      env = { v := 1, s := uint8ArrayToBase64Url salt, i := uint8ArrayToBase64Url iv,
              d := uint8ArrayToBase64Url (B.aesGcmEncrypt (deriveKey B password salt) iv
                (utf8EncodeUnits (encodeB64 data))) } := by
  unfold encrypt compressData jsBtoa at h
  by_cases hall : data.all (· < 256)
  · rw [if_pos hall] at h
    refine ⟨?_, ?_⟩
    · intro b hb
      have := List.all_eq_true.mp hall b hb
      simpa using this
    · simpa using h.symm
  · rw [if_neg hall] at h
    cases h

/-- Decrypting the envelope produced by `encrypt` reduces to the AES-GCM
decryption step: the version check passes and all three base64url fields
decode back to the original byte lists. -/
theorem decrypt_encrypt_reduces (B : CryptoBackend) (data password pw2 salt iv : List Nat)
    (hsalt : ∀ b ∈ salt, b < 256) (hiv : ∀ b ∈ iv, b < 256)
    (hct : ∀ b ∈ B.aesGcmEncrypt (deriveKey B password salt) iv
      (utf8EncodeUnits (encodeB64 data)), b < 256) :
    decrypt B
      { v := 1, s := uint8ArrayToBase64Url salt, i := uint8ArrayToBase64Url iv,
        d := uint8ArrayToBase64Url (B.aesGcmEncrypt (deriveKey B password salt) iv
          (utf8EncodeUnits (encodeB64 data))) } pw2 =
      match B.aesGcmDecrypt (deriveKey B pw2 salt) iv
          (B.aesGcmEncrypt (deriveKey B password salt) iv
            (utf8EncodeUnits (encodeB64 data))) with
      | none => .error .decryptionFailed
      | some decryptedBuffer =>
          match decompressData (utf8DecodeBytes decryptedBuffer) with
          | .error _ => .error .decryptionFailed
          | .ok plain => .ok plain := by
  unfold decrypt
  rw [if_neg (by simp)]
  rw [base64UrlToUint8Array_roundtrip salt hsalt,
    base64UrlToUint8Array_roundtrip iv hiv,
    base64UrlToUint8Array_roundtrip _ hct]

/-- Compact tab record `{t, u, f}` persisted inside folders
(`src/js/folders.js`). -/
structure Tab where
  t : String
  u : String
  f : String
  deriving DecidableEq, Repr

/-- Folder record `{id, name, createdAt, tabs}` (`src/js/folders.js`). -/
structure Folder where
  id : String
  name : String
  createdAt : String
  tabs : List Tab
  deriving DecidableEq, Repr

/-- A browser tab as handed to the folder service; fields may be absent. -/
structure RawTab where
  title : Option String
  url : Option String
  favIconUrl : Option String
  deriving DecidableEq, Repr

/-- The compact-tab conversion used by `createFolder` and `addTabsToFolder`:
each field defaults to the empty string when absent. -/
def rawToCompact (tab : RawTab) : Tab :=
  { t := tab.title.getD "", u := tab.url.getD "", f := tab.favIconUrl.getD "" }

/-- A partial-fields object passed to `updateFolder`; `none` means the field
is absent from the object. -/
structure FolderUpdates where
  id : Option String := none
  name : Option String := none
  createdAt : Option String := none
  tabs : Option (List Tab) := none
  deriving DecidableEq, Repr

/-- The JavaScript spread merge of a folder with an updates
object: every field present in the updates object overwrites the folder's. -/
def applyUpdates (f : Folder) (u : FolderUpdates) : Folder :=
  { id := u.id.getD f.id, name := u.name.getD f.name,
    createdAt := u.createdAt.getD f.createdAt, tabs := u.tabs.getD f.tabs }

/-- Failure of the persistent storage collaborator
(`chrome.runtime.lastError`). -/
inductive StorageError where
  | lastError
  deriving DecidableEq, Repr

/-- State of `chrome.storage.local` under the `folders` key, together with
the failure behaviour of the next read and write. -/
structure StorageState where
  stored : Option (List Folder)
  readFails : Bool
  writeFails : Bool
  deriving DecidableEq, Repr

/-- Model of `loadFromStorage` from `src/js/utils.js`: rejects when the storage read
reports an error, otherwise resolves with the stored value. -/
def loadFromStorage (st : StorageState) : Except StorageError (Option (List Folder)) :=
  if st.readFails then .error .lastError else .ok st.stored

/-- Model of `saveToStorage` from `src/js/utils.js`: rejects when the storage write
reports an error, otherwise resolves after recording the value. -/
def saveToStorage (st : StorageState) (folders : List Folder) :
    Except StorageError StorageState :=
  if st.writeFails then .error .lastError else .ok { st with stored := some folders }

/-- Model of `loadFolders` from `src/js/folders.js`: `result.folders || []` on
success, and the catch branch logs the error and resolves with the empty
list. -/
def loadFolders (st : StorageState) : Except StorageError (List Folder) :=
  match loadFromStorage st with
  | .ok result => .ok (result.getD [])
  | .error _ => .ok []

/-- Model of `saveFolders` from `src/js/folders.js`: the catch branch logs the write
error and resolves normally, leaving the storage unchanged. -/
def saveFolders (st : StorageState) (folders : List Folder) :
    Except StorageError StorageState :=
  match saveToStorage st folders with
  | .ok st2 => .ok st2
  | .error _ => .ok st

/-- Model of `getFolderById` from `src/js/folders.js`: reloads, then `find` with
`null` (here `none`) for a missing id. -/
def getFolderById (st : StorageState) (folderId : String) :
    Except StorageError (Option Folder) := do
  let folders ← loadFolders st
  .ok (folders.find? (fun f => f.id == folderId))

/-- Model of `createFolder` from `src/js/folders.js`; the generated id and the
current timestamp are passed in explicitly. -/
def createFolder (st : StorageState) (name : String) (tabs : List RawTab)
    (newId now : String) : Except StorageError (Folder × StorageState) := do
  let folders ← loadFolders st
  let folder : Folder :=
    { id := newId, name := name, createdAt := now, tabs := tabs.map rawToCompact }
  let st2 ← saveFolders st (folders ++ [folder])
  .ok (folder, st2)

/-- Model of `findIndex` followed by in-place replacement of the found element:
returns the replaced element and the new list, or `none` when no element
matches. -/
def updateFirst (p : Folder → Bool) (g : Folder → Folder) :
    List Folder → Option (Folder × List Folder)
  | [] => none
  | f :: rest =>
      if p f then some (g f, g f :: rest)
      else
        match updateFirst p g rest with
        | some (r, rest2) => some (r, f :: rest2)
        | none => none

/-- Model of `findIndex` followed by `splice(index, 1)`: the list without the first
matching element, or `none` when no element matches. -/
def removeFirst (p : Folder → Bool) : List Folder → Option (List Folder)
  | [] => none
  | f :: rest =>
      if p f then some rest
      else (removeFirst p rest).map (fun rest2 => f :: rest2)

/-- Model of `updateFolder` from `src/js/folders.js`: reload, spread-merge the updates
into the matching folder, persist, return the updated record or `none`. -/
def updateFolder (st : StorageState) (folderId : String) (updates : FolderUpdates) :
    Except StorageError (Option Folder × StorageState) := do
  let folders ← loadFolders st
  match updateFirst (fun f => f.id == folderId) (fun f => applyUpdates f updates) folders with
  | none => .ok (none, st)
  | some (updated, folders2) => do
      let st2 ← saveFolders st folders2
      .ok (some updated, st2)

/-- Model of `addTabsToFolder` from `src/js/folders.js`: reload, append the converted
tabs to the matching folder's list, persist. -/
def addTabsToFolder (st : StorageState) (folderId : String) (tabs : List RawTab) :
    Except StorageError (Option Folder × StorageState) := do
  let folders ← loadFolders st
  match updateFirst (fun f => f.id == folderId)
      (fun f => { f with tabs := f.tabs ++ tabs.map rawToCompact }) folders with
  | none => .ok (none, st)
  | some (updated, folders2) => do
      let st2 ← saveFolders st folders2
      .ok (some updated, st2)

/-- Model of `deleteFolder` from `src/js/folders.js`: reload, splice out the matching
folder, persist, report whether a record was removed. -/
def deleteFolder (st : StorageState) (folderId : String) :
    Except StorageError (Bool × StorageState) := do
  let folders ← loadFolders st
  match removeFirst (fun f => f.id == folderId) folders with
  | none => .ok (false, st)
  | some folders2 => do
      let st2 ← saveFolders st folders2
      .ok (true, st2)

/-- One pass of the global replacement of a fixed literal token, scanning
left to right without rescanning replacements; the fuel argument (one unit
per examined character) makes the recursion structural. -/
def replaceTokAux (pat repl : List Char) : Nat → List Char → List Char
  | _, [] => []
  | 0, s => s
  | fuel + 1, c :: rest =>
      if pat.isPrefixOf (c :: rest) then
        repl ++ replaceTokAux pat repl fuel (rest.drop (pat.length - 1))
      else c :: replaceTokAux pat repl fuel rest

/-- The global replacement of a fixed literal token, the behaviour of a
global string replace with a literal pattern. -/
def replaceTok (pat repl s : List Char) : List Char :=
  replaceTokAux pat repl s.length s

/-- Whether a fixed literal token occurs in a string. -/
def containsPat (pat : List Char) : List Char → Bool
  | [] => pat.isEmpty
  | c :: rest => pat.isPrefixOf (c :: rest) || containsPat pat rest

/-- The title placeholder token. -/
def titleTok : List Char := ['{', '{', 't', 'i', 't', 'l', 'e', '}', '}']

/-- The url placeholder token. -/
def urlTok : List Char := ['{', '{', 'u', 'r', 'l', '}', '}']

/-- The index placeholder token. -/
def indexTok : List Char := ['{', '{', '@', 'i', 'n', 'd', 'e', 'x', '}', '}']

/-- The domain-index placeholder token. -/
def domainIndexTok : List Char :=
  ['{', '{', '@', 'd', 'o', 'm', 'a', 'i', 'n', 'I', 'n', 'd', 'e', 'x', '}', '}']

/-- The empty-markdown-link-brackets artifact. -/
def bracketTok : List Char := ['[', ']']

/-- The empty-parentheses artifact. -/
def parenTok : List Char := ['(', ')']

/-- A run of two spaces, the witness of a collapsible space run. -/
def spacePairTok : List Char := [' ', ' ']

/-- Whether a string ends with the space-dash-space separator. -/
def endsWithSep (s : List Char) : Bool :=
  [' ', '-', ' '].isPrefixOf s.reverse

/-- Whether a string starts with the space-dash-space separator. -/
def startsWithSep (s : List Char) : Bool :=
  [' ', '-', ' '].isPrefixOf s

/-- The removal of a trailing space-dash-space separator. -/
def removeTrailingSep (s : List Char) : List Char :=
  match s.reverse with
  | ' ' :: '-' :: ' ' :: rest => rest.reverse
  | _ => s

/-- The removal of a leading space-dash-space separator. -/
def removeLeadingSep (s : List Char) : List Char :=
  match s with
  | ' ' :: '-' :: ' ' :: rest => rest
  | _ => s

/-- The collapse of every run of spaces to a single space; the flag records
whether the previous character was a space. -/
def collapseAux : Bool → List Char → List Char
  | _, [] => []
  | prevSpace, c :: rest =>
      if c = ' ' then
        if prevSpace then collapseAux true rest
        else ' ' :: collapseAux true rest
      else c :: collapseAux false rest

/-- The collapse of every run of spaces to a single space. -/
def collapseSpaces (s : List Char) : List Char :=
  collapseAux false s

/-- Decimal digits of a number, as interpolated into a template. -/
def natToChars (n : Nat) : List Char :=
  Nat.toDigits 10 n

/-- The artifact cleanup pass of `formatTabs` in `src/popup.js`, in source
order: empty brackets, empty parentheses, trailing separator, leading
separator, space runs. -/
def cleanupArtifacts (s : List Char) : List Char :=
  collapseSpaces (removeLeadingSep (removeTrailingSep (replaceTok parenTok []
    (replaceTok bracketTok [] s))))

/-- A tab as seen by the popup formatter: title and url with the
empty-string default already applied, and the browser tab index. -/
structure PTab where
  title : List Char
  url : List Char
  index : Nat
  deriving DecidableEq, Repr

/-- The checkbox state read by `formatTabs` and `processTabs` in
`src/popup.js`. -/
structure PopupToggles where
  includeTitles : Bool
  includeUrls : Bool
  formatMarkdown : Bool
  sortByPosition : Bool
  groupByDomain : Bool
  deriving DecidableEq, Repr

/-- Stable insertion of a tab before the first strictly larger index. -/
def insertByIndex (t : PTab) : List PTab → List PTab
  | [] => [t]
  | h :: rest => if h.index < t.index then h :: insertByIndex t rest else t :: h :: rest

/-- The stable ascending sort by tab index performed by
`processedTabs.sort` with the index comparator. -/
def sortTabsByIndex : List PTab → List PTab
  | [] => []
  | t :: rest => insertByIndex t (sortTabsByIndex rest)

/-- Model of `processTabs` from `src/popup.js`: optional stable sort by position,
then optional grouping by domain in first-seen order flattened back to a
single list.  `domainOf` stands for `extractDomain` (a host URL parse). -/
def popupProcessTabs (domainOf : List Char → List Char) (tg : PopupToggles)
    (tabs : List PTab) : List PTab :=
  if tabs.isEmpty then []
  else
    let sorted := if tg.sortByPosition then sortTabsByIndex tabs else tabs
    if tg.groupByDomain then
      let domains := (sorted.map (fun tab => domainOf tab.url)).foldl
        (fun acc d => if acc.contains d then acc else acc ++ [d]) []
      (domains.map (fun d => sorted.filter (fun tab => domainOf tab.url == d))).flatten
    else sorted

/-- Default markdown template of `formatTabs` in `src/popup.js`. -/
def defaultMarkdownTemplate : List Char :=
  ['-', ' ', '[', '{', '{', 't', 'i', 't', 'l', 'e', '}', '}', ']',
   '(', '{', '{', 'u', 'r', 'l', '}', '}', ')']

/-- Default plain-text template of `formatTabs` in `src/popup.js`. -/
def defaultPlainTemplate : List Char :=
  ['{', '{', 't', 'i', 't', 'l', 'e', '}', '}', ' ', '-', ' ',
   '{', '{', 'u', 'r', 'l', '}', '}']

/-- The per-tab body of the ungrouped branch of `formatTabs` in
`src/popup.js` (lines 189-215): placeholder substitution gated by the
local include flags, index substitution, then artifact cleanup.  The
domain-index token is not substituted in this branch. -/
def popupFormatTabEntry (template : List Char) (includeTitles includeUrls : Bool)
    (tab : PTab) (index : Nat) : List Char :=
  let r1 := if includeTitles then replaceTok titleTok tab.title template
    else replaceTok titleTok [] template
  let r2 := if includeUrls then replaceTok urlTok tab.url r1 else replaceTok urlTok [] r1
  let r3 := replaceTok indexTok (natToChars (index + 1)) r2
  cleanupArtifacts r3

/-- One step of the grouped branch of `formatTabs` in `src/popup.js`
(lines 140-183): state is the accumulated text, the current domain, the
domain-local counter and the global counter. -/
def popupGroupedStep (domainOf : List Char → List Char)
    (useMarkdown includeTitles includeUrls : Bool) (template : List Char)
    (st : List Char × Option (List Char) × Nat × Nat) (tab : PTab) :
    List Char × Option (List Char) × Nat × Nat :=
  let (result, currentDomain, domainTabIndex, globalIndex) := st
  let domain := domainOf tab.url
  let (result2, currentDomain2, domainTabIndex2) :=
    if some domain ≠ currentDomain then
      (result ++ (if currentDomain ≠ none then ['\n', '\n'] else []) ++
        (if useMarkdown then '#' :: '#' :: ' ' :: (domain ++ ['\n', '\n'])
         else domain ++ ['\n', '\n']),
       some domain, 0)
    else (result, currentDomain, domainTabIndex)
  let t1 := if includeTitles then replaceTok titleTok tab.title template
    else replaceTok titleTok [] template
  let t2 := if includeUrls then replaceTok urlTok tab.url t1 else replaceTok urlTok [] t1
  let t3 := replaceTok indexTok (natToChars (globalIndex + 1)) t2
  let t4 := replaceTok domainIndexTok (natToChars (domainTabIndex2 + 1)) t3
  let t5 := cleanupArtifacts t4
  (result2 ++ t5 ++ ['\n'], currentDomain2, domainTabIndex2 + 1, globalIndex + 1)

/-- Model of `formatTabs` from `src/popup.js` (lines 113-218).  The toggle state is
read into locals first; when neither titles nor urls are requested the
include-urls checkbox is set, but the locals used for this very call keep
their original values.  The returned pair is the produced text and the
checkbox state after the call. -/
def popupFormatTabs (domainOf : List Char → List Char) (tg : PopupToggles)
    (formatTemplateValue plainTextTemplateValue : List Char) (tabs : List PTab) :
    List Char × PopupToggles :=
  if tabs.isEmpty then ([], tg)
  else
    let includeTitles := tg.includeTitles
    let includeUrls := tg.includeUrls
    let useMarkdown := tg.formatMarkdown
    let tg2 := if ¬includeTitles ∧ ¬includeUrls then { tg with includeUrls := true } else tg
    let template := if useMarkdown then
        (if formatTemplateValue.isEmpty then defaultMarkdownTemplate else formatTemplateValue)
      else
        (if plainTextTemplateValue.isEmpty then defaultPlainTemplate else plainTextTemplateValue)
    let processedTabs := popupProcessTabs domainOf tg tabs
    if tg.groupByDomain then
      ((processedTabs.foldl
        (popupGroupedStep domainOf useMarkdown includeTitles includeUrls template)
        ([], none, 0, 0)).1, tg2)
    else
      (List.intercalate ['\n'] (processedTabs.enum.map
        (fun p => popupFormatTabEntry template includeTitles includeUrls p.2 p.1)), tg2)

/-- Outcome of the `fetch` call inside `shortenUrl` of
`src/ui/folders-ui.js`.  `networkError` is a rejected fetch; otherwise `ok`
is the 2xx flag and `body` describes `response.json()`: `none` when parsing
the body throws (or the parsed value admits no property access), and
otherwise the optional `share_id` string of the parsed object. -/
inductive FetchOutcome where
  | networkError
  | response (ok : Bool) (body : Option (Option (List Char)))
  deriving DecidableEq, Repr

/-- The fixed short-link prefix used by `shortenUrl`. -/
def shortLinkBase : List Char :=
  "https://sorame.danials.space/link/".toList

/-- Model of `shortenUrl` from `src/ui/folders-ui.js`: POSTs the url, throws on a
non-2xx response, reads `share_id` from the parsed body and interpolates it
into the short-link template; the catch branch returns the original url.
A parsed body without `share_id` interpolates the undefined value, which
stringifies to the text `undefined`. -/
def shortenUrl (outcome : FetchOutcome) (url : List Char) : List Char :=
  match outcome with
  | .networkError => url
  | .response ok body =>
      if !ok then url
      else
        match body with
        | none => url
        | some shareId =>
            match shareId with
            | some sid => shortLinkBase ++ sid
            | none => shortLinkBase ++ ['u', 'n', 'd', 'e', 'f', 'i', 'n', 'e', 'd']

/-- The folder list that `loadFolders` resolves with. -/
def loadedList (st : StorageState) : List Folder :=
  if st.readFails then [] else st.stored.getD []

theorem loadFolders_eq (st : StorageState) : loadFolders st = .ok (loadedList st) := by
  unfold loadFolders loadFromStorage loadedList
  by_cases h : st.readFails
  · simp [h]
  · simp [h]

theorem loadedList_subset (st : StorageState) :
    ∀ g ∈ loadedList st, g ∈ st.stored.getD [] := by
  unfold loadedList
  by_cases h : st.readFails
  · simp [h]
  · simp [h]

theorem saveFolders_eq (st : StorageState) (fs : List Folder) :
    saveFolders st fs = .ok (if st.writeFails then st else { st with stored := some fs }) := by
  unfold saveFolders saveToStorage
  by_cases h : st.writeFails
  · simp [h]
  · simp [h]

theorem updateFirst_some (p : Folder → Bool) (g : Folder → Folder) :
    ∀ fs r fs2, updateFirst p g fs = some (r, fs2) →
      ∃ f, f ∈ fs ∧ p f = true ∧ r = g f ∧ ∀ x ∈ fs2, x = g f ∨ x ∈ fs
  | [], r, fs2, h => by cases h
  | f :: rest, r, fs2, h => by
      unfold updateFirst at h
      by_cases hp : p f
      · rw [if_pos hp] at h
        simp only [Option.some.injEq, Prod.mk.injEq] at h
        obtain ⟨rfl, rfl⟩ := h
        refine ⟨f, by simp, hp, rfl, ?_⟩
        intro x hx
        rcases List.mem_cons.mp hx with rfl | hx2
        · exact Or.inl rfl
        · exact Or.inr (List.mem_cons_of_mem f hx2)
      · rw [if_neg hp] at h
        cases hu : updateFirst p g rest with
        | none => rw [hu] at h; cases h
        | some pr =>
            obtain ⟨r2, rest2⟩ := pr
            rw [hu] at h
            simp only [Option.some.injEq, Prod.mk.injEq] at h
            obtain ⟨rfl, rfl⟩ := h
            obtain ⟨f0, hmem, hp0, hr, hsub⟩ := updateFirst_some p g rest r2 rest2 hu
            refine ⟨f0, by simp [hmem], hp0, hr, ?_⟩
            intro x hx
            rcases List.mem_cons.mp hx with rfl | hx2
            · exact Or.inr (by simp)
            · rcases hsub x hx2 with h1 | h1
              · exact Or.inl h1
              · exact Or.inr (List.mem_cons_of_mem f h1)

theorem removeFirst_subset (p : Folder → Bool) :
    ∀ fs fs2, removeFirst p fs = some fs2 → ∀ x ∈ fs2, x ∈ fs
  | [], fs2, h => by cases h
  | f :: rest, fs2, h => by
      unfold removeFirst at h
      by_cases hp : p f
      · rw [if_pos hp] at h
        simp only [Option.some.injEq] at h
        subst h
        intro x hx
        exact List.mem_cons_of_mem f hx
      · rw [if_neg hp] at h
        cases hu : removeFirst p rest with
        | none => rw [hu] at h; cases h
        | some rest2 =>
            rw [hu] at h
            rw [Option.map_some'] at h
            simp only [Option.some.injEq] at h
            subst h
            intro x hx
            rcases List.mem_cons.mp hx with rfl | hx2
            · exact List.mem_cons_self _ _
            · exact List.mem_cons_of_mem f (removeFirst_subset p rest rest2 hu x hx2)

theorem replaceTokAux_id (pat repl : List Char) :
    ∀ fuel t, containsPat pat t = false → replaceTokAux pat repl fuel t = t
  | fuel, [], _ => by cases fuel <;> rfl
  | 0, _ :: _, _ => rfl
  | fuel + 1, c :: rest, h => by
      unfold containsPat at h
      simp only [Bool.or_eq_false_iff] at h
      unfold replaceTokAux
      rw [if_neg (by simp [h.1])]
      rw [replaceTokAux_id pat repl fuel rest h.2]

theorem replaceTok_id (pat repl t : List Char) (h : containsPat pat t = false) :
    replaceTok pat repl t = t :=
  replaceTokAux_id pat repl t.length t h

theorem removeTrailingSep_id (s : List Char) (h : endsWithSep s = false) :
    removeTrailingSep s = s := by
  unfold removeTrailingSep
  unfold endsWithSep at h
  split
  · next rest heq =>
      rw [heq] at h
      simp [List.isPrefixOf] at h
  · rfl

theorem removeLeadingSep_id (s : List Char) (h : startsWithSep s = false) :
    removeLeadingSep s = s := by
  unfold removeLeadingSep
  unfold startsWithSep at h
  split
  · next rest =>
      simp [List.isPrefixOf] at h
  · rfl

theorem collapseAux_id : ∀ t, containsPat spacePairTok t = false →
    collapseAux false t = t ∧ (t.head? ≠ some ' ' → collapseAux true t = t)
  | [], _ => ⟨rfl, fun _ => rfl⟩
  | c :: rest, h => by
      unfold containsPat at h
      simp only [Bool.or_eq_false_iff] at h
      obtain ⟨hpre, hrest⟩ := h
      have ih := collapseAux_id rest hrest
      by_cases hc : c = ' '
      · subst hc
        have hrh : rest.head? ≠ some ' ' := by
          cases rest with
          | nil => simp
          | cons r rs =>
              intro hcontra
              simp only [List.head?, Option.some.injEq] at hcontra
              subst hcontra
              simp [spacePairTok, List.isPrefixOf] at hpre
        constructor
        · show collapseAux false (' ' :: rest) = ' ' :: rest
          unfold collapseAux
          rw [if_pos rfl]
          show ' ' :: collapseAux true rest = ' ' :: rest
          rw [ih.2 hrh]
        · intro hcontra
          exact absurd (rfl : (' ' :: rest).head? = some ' ') hcontra
      · constructor
        · unfold collapseAux
          rw [if_neg hc]
          rw [ih.1]
        · intro _
          unfold collapseAux
          rw [if_neg hc]
          rw [ih.1]

theorem cleanupArtifacts_id (t : List Char)
    (h4 : containsPat bracketTok t = false) (h5 : containsPat parenTok t = false)
    (h6 : endsWithSep t = false) (h7 : startsWithSep t = false)
    (h8 : containsPat spacePairTok t = false) :
    cleanupArtifacts t = t := by
  unfold cleanupArtifacts
  rw [replaceTok_id _ _ _ h4, replaceTok_id _ _ _ h5, removeTrailingSep_id _ h6,
    removeLeadingSep_id _ h7]
  exact (collapseAux_id t h8).1

/-- A sample popup tab. -/
def tabSample : PTab :=
  { title := ['A'], url := ['h', 't', 't', 'p', 's', ':', '/', '/', 'a', '.', 'c', 'o', 'm'],
    index := 0 }

/-- A sample stored folder. -/
def folderA : Folder :=
  { id := "folder_1", name := "Research", createdAt := "2024-01-01T00:00:00.000Z", tabs := [] }

/-- A second sample folder. -/
def folderB : Folder :=
  { id := "folder_2", name := "News", createdAt := "2024-02-02T00:00:00.000Z", tabs := [] }

/-- Storage holding exactly `folderA`, with reliable reads and writes. -/
def stA : StorageState :=
  { stored := some [folderA], readFails := false, writeFails := false }

/-- The envelope produced by the toy backend for plaintext `H`, password
`p` (code units 112), salt `[1, 2]` and iv `[3]`. -/
def envPlain : Envelope :=
  { v := 1, s := [65, 81, 73], i := [65, 119],
    d := [66, 65, 70, 119, 65, 65, 69, 67, 65, 49, 78, 66, 80, 84, 48] }

/-- The envelope produced by the toy backend for plaintext `H`, the
one-unit password consisting of the lone high surrogate 55296, salt
`[1, 2]` and iv `[3]`. -/
def envSurrogate : Envelope :=
  { v := 1, s := [65, 81, 73], i := [65, 119],
    d := [66, 103, 72, 118, 118, 55, 48, 65, 65, 81, 73, 68, 85, 48, 69, 57, 80, 81] }

/-- C1: for every plaintext and password for which `encrypt` succeeds,
decrypting the resulting envelope (its JSON parse being the identity on this
flat record) with the same password returns exactly the plaintext.  The
AES-GCM collaborator is assumed to inverse itself at the used key, iv and
message, and to produce bytes. -/
theorem encrypt_decrypt_roundtrip (B : CryptoBackend) (data password salt iv : List Nat)
    (env : Envelope)
    (hsalt : ∀ b ∈ salt, b < 256) (hiv : ∀ b ∈ iv, b < 256)
    (hct : ∀ b ∈ B.aesGcmEncrypt (deriveKey B password salt) iv
      (utf8EncodeUnits (encodeB64 data)), b < 256)
    (hdec : B.aesGcmDecrypt (deriveKey B password salt) iv
      (B.aesGcmEncrypt (deriveKey B password salt) iv (utf8EncodeUnits (encodeB64 data))) =
      some (utf8EncodeUnits (encodeB64 data)))
    (henc : encrypt B data password salt iv = .ok env) :
    decrypt B env password = .ok data := by
  obtain ⟨hdata, henv⟩ := encrypt_ok_elim B data password salt iv env henc
  subst henv
  rw [decrypt_encrypt_reduces B data password password salt iv hsalt hiv hct, hdec]
  show (match decompressData (utf8DecodeBytes (utf8EncodeUnits (encodeB64 data))) with
    | .error _ => Except.error JsError.decryptionFailed
    | .ok plain => Except.ok plain) = Except.ok data
  rw [utf8_ascii_roundtrip _ (encodeB64_all_lt_128 data hdata),
    decompressData_encodeB64 data hdata]

theorem encrypt_decrypt_roundtrip_witness :
    encrypt toyBackend [72] [112] [1, 2] [3] = .ok envPlain ∧
    decrypt toyBackend envPlain [112] = .ok [72] :=
  ⟨by decide,
   encrypt_decrypt_roundtrip toyBackend [72] [112] [1, 2] [3] envPlain
     (by decide) (by decide) (by decide) (by decide) (by decide)⟩

/-- C2 (counterexample): the claim fails as stated.  The two one-unit
passwords 55296 (a lone high surrogate) and 65533 (the replacement
character) are distinct strings, yet the password `TextEncoder` collapses
both to the same UTF-8 bytes, so the derived keys coincide and decryption
with the second password succeeds and returns the plaintext. -/
theorem decrypt_distinct_passwords_counterexample :
    ([55296] : List Nat) ≠ [65533] ∧
    encrypt toyBackend [72] [55296] [1, 2] [3] = .ok envSurrogate ∧
    decrypt toyBackend envSurrogate [65533] = .ok [72] :=
  ⟨by decide, by decide, by decide⟩

/-- C2 (amended): decrypting with a second password fails whenever the two
passwords derive distinct keys (in particular whenever their UTF-8 byte
encodings differ and the key derivation is collision-free on them), assuming
the AES-GCM collaborator rejects every key other than the encryption key. -/
theorem decrypt_wrong_password_fails (B : CryptoBackend) (data pw1 pw2 salt iv : List Nat)
    (env : Envelope)
    (hsalt : ∀ b ∈ salt, b < 256) (hiv : ∀ b ∈ iv, b < 256)
    (hct : ∀ b ∈ B.aesGcmEncrypt (deriveKey B pw1 salt) iv
      (utf8EncodeUnits (encodeB64 data)), b < 256)
    (hkeys : deriveKey B pw2 salt ≠ deriveKey B pw1 salt)
    (hauth : ∀ k, k ≠ deriveKey B pw1 salt →
      B.aesGcmDecrypt k iv (B.aesGcmEncrypt (deriveKey B pw1 salt) iv
        (utf8EncodeUnits (encodeB64 data))) = none)
    (henc : encrypt B data pw1 salt iv = .ok env) :
    decrypt B env pw2 = .error .decryptionFailed := by
  obtain ⟨hdata, henv⟩ := encrypt_ok_elim B data pw1 salt iv env henc
  subst henv
  rw [decrypt_encrypt_reduces B data pw1 pw2 salt iv hsalt hiv hct, hauth _ hkeys]

theorem decrypt_wrong_password_fails_witness :
    deriveKey toyBackend [113] [1, 2] ≠ deriveKey toyBackend [112] [1, 2] ∧
    encrypt toyBackend [72] [112] [1, 2] [3] = .ok envPlain ∧
    decrypt toyBackend envPlain [113] = .error .decryptionFailed :=
  ⟨by decide, by decide,
   decrypt_wrong_password_fails toyBackend [72] [112] [113] [1, 2] [3] envPlain
     (by decide) (by decide) (by decide) (by decide)
     (fun k hk => toyBackend_auth (deriveKey toyBackend [112] [1, 2]) [3]
       (utf8EncodeUnits (encodeB64 [72])) k hk)
     (by decide)⟩

/-- C3: `decrypt` on an envelope whose version is anything other than 1
fails with the generic decryption failure for every backend whatsoever -
the result does not depend on the key-derivation or AES collaborators, so
neither is performed. -/
theorem decrypt_version_gate (B : CryptoBackend) (env : Envelope) (password : List Nat)
    (hv : env.v ≠ 1) : decrypt B env password = .error .decryptionFailed := by
  unfold decrypt
  rw [if_pos hv]

theorem decrypt_version_gate_witness :
    ((2 : Int) ≠ 1) ∧
      decrypt toyBackend { v := 2, s := [], i := [], d := [] } [] =
        .error .decryptionFailed :=
  ⟨by decide, decrypt_version_gate toyBackend { v := 2, s := [], i := [], d := [] } []
    (by decide)⟩

/-- C4 (code evaluated at the failing input): with the compression library
unavailable, `compressData` is `btoa` on the raw string and throws
`InvalidCharacterError` on the one-character string with code unit 937
(a capital Omega) - so the fallback codec does not round-trip on non-Latin-1
text, and `encrypt` fails on such plaintext as well. -/
theorem compressData_wide_char_failure :
    compressData [937] = .error .invalidCharacter ∧
    encrypt toyBackend [937] [112] [1, 2] [3] = .error .encryptionFailed :=
  ⟨by decide, by decide⟩

/-- C5: decoding inverts the URL-safe base64 encoding on every byte list,
and the encoded form never contains the code units of the plus sign (43),
the slash (47) or the equals sign (61). -/
theorem base64url_roundtrip_and_charset (b : List Nat) (h : ∀ x ∈ b, x < 256) :
    base64UrlToUint8Array (uint8ArrayToBase64Url b) = .ok b ∧
    ∀ c ∈ uint8ArrayToBase64Url b, c ≠ 43 ∧ c ≠ 47 ∧ c ≠ 61 :=
  ⟨base64UrlToUint8Array_roundtrip b h, uint8ArrayToBase64Url_no_forbidden b h⟩

theorem base64url_roundtrip_and_charset_witness :
    (∀ x ∈ ([0, 251, 255] : List Nat), x < 256) ∧
    base64UrlToUint8Array (uint8ArrayToBase64Url [0, 251, 255]) = .ok [0, 251, 255] ∧
    ∀ c ∈ uint8ArrayToBase64Url [0, 251, 255], c ≠ 43 ∧ c ≠ 47 ∧ c ≠ 61 :=
  ⟨by decide, (base64url_roundtrip_and_charset [0, 251, 255] (by decide)).1,
   (base64url_roundtrip_and_charset [0, 251, 255] (by decide)).2⟩

/-- C6 (counterexample): the claim fails as stated.  A failing storage read
makes `loadFolders` resolve normally with the empty list (indistinguishable
from an empty store), and a failing storage write makes `saveFolders`
resolve normally leaving the store unchanged - neither failure reaches the
caller as an error. -/
theorem storage_failure_swallowed_counterexample :
    loadFolders { stored := some [folderA], readFails := true, writeFails := false } =
      .ok [] ∧
    saveFolders { stored := some [folderA], readFails := false, writeFails := true }
      [folderB] = .ok { stored := some [folderA], readFails := false, writeFails := true } :=
  ⟨by decide, by decide⟩

/-- C6 (amended): storage failures are caught inside the folder service and
logged, never propagated: on every failing read `loadFolders` resolves with
the empty list, and on every failing write `saveFolders` resolves with the
prior storage state, so no Folder Store operation ever rejects on a storage
failure. -/
theorem storage_failures_swallowed :
    (∀ st : StorageState, st.readFails = true → loadFolders st = .ok []) ∧
    (∀ (st : StorageState) (fs : List Folder), st.writeFails = true →
      saveFolders st fs = .ok st) := by
  constructor
  · intro st h
    unfold loadFolders loadFromStorage
    simp [h]
  · intro st fs h
    unfold saveFolders saveToStorage
    simp [h]

theorem storage_failures_swallowed_witness :
    loadFolders { stored := some [folderA], readFails := true, writeFails := false } =
      .ok [] ∧
    saveFolders { stored := none, readFails := false, writeFails := true } [folderA] =
      .ok { stored := none, readFails := false, writeFails := true } :=
  ⟨storage_failures_swallowed.1 _ rfl, storage_failures_swallowed.2 _ _ rfl⟩

/-- C7 (code evaluated at the failing input): with include-titles and
include-urls both off, `formatTabs` on one tab with the default plain
template produces the empty text - the fallback only sets the include-urls
checkbox for later calls (visible in the returned toggle state), and the
tab's URL does not appear in this call's output, contradicting the claim
and the comment in the source. -/
theorem formatTabs_url_fallback_bug :
    popupFormatTabs (fun _ => []) ⟨false, false, false, false, false⟩ [] [] [tabSample] =
      ([], ⟨false, true, false, false, false⟩) := by
  decide

/-- C8 (counterexample): the claim fails as stated.  `updateFolder`
spread-merges an arbitrary partial-fields object, so an updates object that
itself carries a `createdAt` field overwrites the value stamped at
creation. -/
theorem updateFolder_overwrites_createdAt :
    updateFolder stA "folder_1" { createdAt := some "1999-01-01T00:00:00.000Z" } =
      .ok (some { id := "folder_1", name := "Research",
                  createdAt := "1999-01-01T00:00:00.000Z", tabs := [] },
           { stored := some [{ id := "folder_1", name := "Research",
                               createdAt := "1999-01-01T00:00:00.000Z", tabs := [] }],
             readFails := false, writeFails := false }) ∧
    ("1999-01-01T00:00:00.000Z" : String) ≠ "2024-01-01T00:00:00.000Z" :=
  ⟨by decide, by decide⟩

/-- C8 (amended): `createdAt` is preserved by every Folder Store mutation
whose updates object does not itself carry a `createdAt` field (which no
caller in the repository does): the folder updated by `updateFolder` keeps
the `createdAt` of the stored folder with that id, `addTabsToFolder` keeps
id, name and `createdAt`, and after either operation or a `deleteFolder`
every stored folder is the operation's result or a previously stored
record. -/
theorem createdAt_set_once :
    (∀ st fid u res st2, u.createdAt = none →
       updateFolder st fid u = .ok (some res, st2) →
       (∃ f, f ∈ loadedList st ∧ f.id = fid ∧ res.createdAt = f.createdAt) ∧
       ∀ g ∈ st2.stored.getD [], g = res ∨ g ∈ st.stored.getD []) ∧
    (∀ st fid tabs res st2,
       addTabsToFolder st fid tabs = .ok (some res, st2) →
       (∃ f, f ∈ loadedList st ∧ f.id = fid ∧ res.createdAt = f.createdAt ∧
         res.id = f.id ∧ res.name = f.name) ∧
       ∀ g ∈ st2.stored.getD [], g = res ∨ g ∈ st.stored.getD []) ∧
    (∀ st fid b st2, deleteFolder st fid = .ok (b, st2) →
       ∀ g ∈ st2.stored.getD [], g ∈ st.stored.getD []) := by
  refine ⟨?_, ?_, ?_⟩
  · intro st fid u res st2 hu hop
    unfold updateFolder at hop
    rw [loadFolders_eq st] at hop
    simp only [Bind.bind, Except.bind] at hop
    split at hop
    · simp at hop
    · next updated folders2 hU =>
        rw [saveFolders_eq st folders2] at hop
        simp only [Except.ok.injEq, Prod.mk.injEq, Option.some.injEq] at hop
        obtain ⟨rfl, rfl⟩ := hop
        obtain ⟨f, hmem, hp, hres, hsub⟩ := updateFirst_some _ _ _ _ _ hU
        refine ⟨⟨f, hmem, by simpa using hp, by rw [hres]; simp [applyUpdates, hu]⟩, ?_⟩
        intro g hg
        by_cases hw : st.writeFails
        · rw [if_pos hw] at hg
          exact Or.inr hg
        · rw [if_neg hw] at hg
          simp only [Option.getD_some] at hg
          rcases hsub g hg with h1 | h1
          · exact Or.inl (by rw [hres, h1])
          · exact Or.inr (loadedList_subset st g h1)
  · intro st fid tabs res st2 hop
    unfold addTabsToFolder at hop
    rw [loadFolders_eq st] at hop
    simp only [Bind.bind, Except.bind] at hop
    split at hop
    · simp at hop
    · next updated folders2 hU =>
        rw [saveFolders_eq st folders2] at hop
        simp only [Except.ok.injEq, Prod.mk.injEq, Option.some.injEq] at hop
        obtain ⟨rfl, rfl⟩ := hop
        obtain ⟨f, hmem, hp, hres, hsub⟩ := updateFirst_some _ _ _ _ _ hU
        refine ⟨⟨f, hmem, by simpa using hp, by rw [hres], by rw [hres], by rw [hres]⟩, ?_⟩
        intro g hg
        by_cases hw : st.writeFails
        · rw [if_pos hw] at hg
          exact Or.inr hg
        · rw [if_neg hw] at hg
          simp only [Option.getD_some] at hg
          rcases hsub g hg with h1 | h1
          · exact Or.inl (by rw [hres, h1])
          · exact Or.inr (loadedList_subset st g h1)
  · intro st fid b st2 hop
    unfold deleteFolder at hop
    rw [loadFolders_eq st] at hop
    simp only [Bind.bind, Except.bind] at hop
    split at hop
    · simp only [Except.ok.injEq, Prod.mk.injEq] at hop
      obtain ⟨rfl, rfl⟩ := hop
      intro g hg
      exact hg
    · next folders2 hR =>
        rw [saveFolders_eq st folders2] at hop
        simp only [Except.ok.injEq, Prod.mk.injEq] at hop
        obtain ⟨rfl, rfl⟩ := hop
        intro g hg
        by_cases hw : st.writeFails
        · rw [if_pos hw] at hg
          exact hg
        · rw [if_neg hw] at hg
          simp only [Option.getD_some] at hg
          exact loadedList_subset st g (removeFirst_subset _ _ _ hR g hg)

/-- The folder returned by renaming `folderA`. -/
def folderRenamed : Folder :=
  { id := "folder_1", name := "Notes", createdAt := "2024-01-01T00:00:00.000Z", tabs := [] }

theorem createdAt_set_once_witness :
    updateFolder stA "folder_1" { name := some "Notes" } =
      .ok (some folderRenamed,
        { stored := some [folderRenamed], readFails := false, writeFails := false }) ∧
    ((∃ f, f ∈ loadedList stA ∧ f.id = "folder_1" ∧
        folderRenamed.createdAt = f.createdAt) ∧
      ∀ g ∈ (some [folderRenamed] : Option (List Folder)).getD [],
        g = folderRenamed ∨ g ∈ stA.stored.getD []) :=
  ⟨by decide,
   createdAt_set_once.1 stA "folder_1" { name := some "Notes" } folderRenamed
     { stored := some [folderRenamed], readFails := false, writeFails := false }
     rfl (by decide)⟩

/-- C9 (counterexample): the claim fails as stated.  The four-character
template of a letter, two spaces and a letter contains no recognized
placeholder, yet the popup formatter's cleanup pass collapses the double
space, so formatting a tab with it returns a different string. -/
theorem template_rewritten_counterexample :
    popupFormatTabs (fun _ => []) ⟨true, true, false, false, false⟩ []
      ['a', ' ', ' ', 'b'] [tabSample] =
      (['a', ' ', 'b'], ⟨true, true, false, false, false⟩) ∧
    (['a', ' ', 'b'] : List Char) ≠ ['a', ' ', ' ', 'b'] :=
  ⟨by decide, by decide⟩

/-- C9 (amended): formatting a tab with a template containing no recognized
placeholder returns the template unchanged provided the template is also
free of the artifacts rewritten by the cleanup pass: empty brackets, empty
parentheses, a leading or trailing space-dash-space separator, and runs of
multiple spaces. -/
theorem clean_template_identity (template : List Char) (includeTitles includeUrls : Bool)
    (tab : PTab) (index : Nat)
    (h1 : containsPat titleTok template = false)
    (h2 : containsPat urlTok template = false)
    (h3 : containsPat indexTok template = false)
    (h4 : containsPat bracketTok template = false)
    (h5 : containsPat parenTok template = false)
    (h6 : endsWithSep template = false)
    (h7 : startsWithSep template = false)
    (h8 : containsPat spacePairTok template = false) :
    popupFormatTabEntry template includeTitles includeUrls tab index = template := by
  unfold popupFormatTabEntry
  have e1 : (if includeTitles then replaceTok titleTok tab.title template
      else replaceTok titleTok [] template) = template := by
    cases includeTitles <;> simp [replaceTok_id _ _ _ h1]
  have e2 : (if includeUrls then replaceTok urlTok tab.url template
      else replaceTok urlTok [] template) = template := by
    cases includeUrls <;> simp [replaceTok_id _ _ _ h2]
  simp only [e1, e2, replaceTok_id _ _ _ h3]
  exact cleanupArtifacts_id template h4 h5 h6 h7 h8

theorem clean_template_identity_witness :
    containsPat titleTok ['x', 'y'] = false ∧
    popupFormatTabEntry ['x', 'y'] true true tabSample 0 = ['x', 'y'] :=
  ⟨by decide,
   clean_template_identity ['x', 'y'] true true tabSample 0 (by decide) (by decide)
     (by decide) (by decide) (by decide) (by decide) (by decide) (by decide)⟩

/-- C10 (counterexample): the claim fails as stated.  On a 2xx response
whose JSON body parses but carries no `share_id`, `shortenUrl` does not
fall back to the original url: it interpolates the undefined property and
returns the short-link prefix followed by the text `undefined`. -/
theorem shortenUrl_missing_share_id_counterexample :
    shortenUrl (.response true (some none)) ['h', 't', 't', 'p', ':', '/', '/', 'x'] =
      shortLinkBase ++ ['u', 'n', 'd', 'e', 'f', 'i', 'n', 'e', 'd'] ∧
    shortLinkBase ++ ['u', 'n', 'd', 'e', 'f', 'i', 'n', 'e', 'd'] ≠
      ['h', 't', 't', 'p', ':', '/', '/', 'x'] :=
  ⟨by decide, by decide⟩

/-- C10 (amended): `shortenUrl` never throws past its boundary and returns
the original url on a rejected fetch, on a non-2xx response and on a body
that fails to parse; on a 2xx response whose body carries a `share_id` it
returns the short link built from that id (but a parsed body without a
`share_id` yields the short-link prefix followed by the text `undefined`
rather than the original url). -/
theorem shortenUrl_fallback (url sid : List Char) (body : Option (Option (List Char))) :
    shortenUrl .networkError url = url ∧
    shortenUrl (.response false body) url = url ∧
    shortenUrl (.response true none) url = url ∧
    shortenUrl (.response true (some (some sid))) url = shortLinkBase ++ sid :=
  ⟨rfl, rfl, rfl, rfl⟩

theorem shortenUrl_fallback_witness :
    shortenUrl .networkError ['x'] = ['x'] ∧
    shortenUrl (.response false none) ['x'] = ['x'] ∧
    shortenUrl (.response true none) ['x'] = ['x'] ∧
    shortenUrl (.response true (some (some ['y']))) ['x'] = shortLinkBase ++ ['y'] :=
  shortenUrl_fallback ['x'] ['y'] none
